import Mathlib

/-!
Shallow embedding of the `generator` package of susji/typestringer
(src/stringsvar.go): a source-code generator that loads Go packages,
filters their top-level type declaration names through include/ignore
regular-expression lists, and emits one generated artifact per package
through a pluggable `io.WriteCloser` sink.

Modelling conventions:
* A compiled regular expression is modelled as its matching function
  `String → Bool` (only `MatchString` is ever called on it).
* A loaded `packages.Package` is modelled by its three fields the code
  reads: `Errors` (load diagnostics, as strings), `GoFiles` (paths) and
  `Syntax` (parsed files, each with its declared package name and its
  top-level declarations in source order).
* An `io.WriteCloser` sink is modelled by a failure plan `failIdx`: the
  i-th write call on the sink fails exactly when `i ∈ failIdx` (a failed
  write writes nothing).  The Go code discards the results of every
  `fmt.Fprint`/`Fprintf` call, so the emission model records both the
  attempted writes and the successful ones.
* `packages.Load` is external I/O; `generate` takes its outcome
  (`Except` error / package list) as an argument.
* Go panics (the `nil WriteCloser` check, and out-of-bounds indexing of
  `g.Patterns[i]`) are modelled as distinct result constructors that
  halt the run.
-/

set_option autoImplicit false

namespace Typestringer

/-- A compiled regular expression, reduced to its `MatchString` function. -/
abbrev Pattern := String → Bool

/-- The `go/token` token of a `GenDecl`; the code only distinguishes
`token.TYPE` from everything else. -/
inductive Tok where
  | type
  | otherTok
  deriving DecidableEq

/-- One top-level declaration of a parsed file: a `*ast.GenDecl` carrying
its token and the names of its type specifiers, or any other declaration
kind (`*ast.FuncDecl`, ...), which the walk skips. -/
inductive Decl where
  | genDecl (tok : Tok) (specNames : List String)
  | otherDecl
  deriving DecidableEq

/-- One parsed file of `p.Syntax`: its declared package name
(`a.Name.Name`) and its top-level declarations in source order. -/
structure GoFile where
  pkgName : String
  decls : List Decl
  deriving DecidableEq

/-- The fields of a loaded `packages.Package` that the generator reads. -/
structure Package where
  errors : List String
  goFiles : List String
  astFiles : List GoFile
  deriving DecidableEq

/-- An `io.WriteCloser` sink, modelled by its failure plan: the i-th
write call on it fails exactly when `i ∈ failIdx`. -/
structure SinkSpec where
  failIdx : List Nat
  deriving DecidableEq

/-- What happened on one sink during emission: every write attempted, in
order, and the subset that succeeded. -/
structure WriteLog where
  attempts : List String
  written : List String
  deriving DecidableEq

/-- `Generator` configuration (src/stringsvar.go).  `Output = some w`
models a non-nil `g.Output`; `WriteCloserCreator` returns the Go pair
`(io.WriteCloser, error)` as `Option SinkSpec × Option String`.
`DiagnosticOutput` is write-only in the code and is not modelled. -/
structure Generator where
  Patterns : List String
  Includes : List Pattern
  Ignores : List Pattern
  Format : String
  WriteCloserCreator : String → String → Option SinkSpec × Option String
  Output : Option SinkSpec
  NoClose : Bool
  Header : String
  Preamble : String
  NoPackage : Bool

/-- `true` iff some pattern in the list matches the name (the inner
`for _, r := range ...; r.MatchString(tn)` loops). -/
def matchesAny (rs : List Pattern) (s : String) : Bool :=
  rs.any fun r => r s

/-- The type-spec loop of `HandlePackage` (lines 134-158): for each spec
name, ignore patterns are consulted first (`continue decl` on a match),
then — only when the include list is non-empty — the include patterns
(`continue` when none matches), and surviving names are appended. -/
def collectSpecs (inc ign : List Pattern) (acc : List String) : List String → List String
  | [] => acc
  | tn :: rest =>
    if matchesAny ign tn then
      collectSpecs inc ign acc rest
    else if inc.length > 0 && !matchesAny inc tn then
      collectSpecs inc ign acc rest
    else
      collectSpecs inc ign (acc ++ [tn]) rest

/-- The declaration loop body: only `GenDecl`s with token `TYPE` are
walked, everything else is skipped (`continue`). -/
def collectDecl (inc ign : List Pattern) (acc : List String) : Decl → List String
  | .genDecl tok specs => if tok = Tok.type then collectSpecs inc ign acc specs else acc
  | .otherDecl => acc

/-- The walk over one file's declarations. -/
def collectFile (inc ign : List Pattern) (acc : List String) (f : GoFile) : List String :=
  f.decls.foldl (collectDecl inc ign) acc

/-- The walk over all files of `p.Syntax`, accumulating `typenames` in
traversal order (file-list order, then declaration order, then spec
order). -/
def collectFiles (inc ign : List Pattern) (acc : List String) (files : List GoFile) : List String :=
  files.foldl (collectFile inc ign) acc

/-- `packagename` as computed by the walk: reassigned to `a.Name.Name`
for every visited file, so the last file wins (`""`, Go's zero value,
when there are no parsed files). -/
def lastPackageName (files : List GoFile) : String :=
  files.foldl (fun _ a => a.pkgName) ""

/-- Substitutes `tn` for every `%s` verb in a format string's character
list. -/
def substName (tn : String) : List Char → List Char
  | [] => []
  | '%' :: 's' :: rest => tn.data ++ substName tn rest
  | c :: rest => c :: substName tn rest

/-- `fmt.Sprintf(format, tn, tn)` for the `%s`-only stub templates the
generator uses (the two format operands are the same name, so every
`%s` slot receives `tn`). -/
def sprintf2 (format tn : String) : String :=
  { data := substName tn format.data }

/-- The texts passed to the write calls of `HandlePackage` lines
174-185, in order: optional header, optional `package <name>` clause,
optional preamble (followed by a blank-line separator), then one
formatted stub line per collected type name. -/
def emitTexts (g : Generator) (packagename : String) (typenames : List String) : List String :=
  (if g.Header.length > 0 then [g.Header] else [])
    ++ (if !g.NoPackage then ["package " ++ packagename ++ "\n\n"] else [])
    ++ (if g.Preamble.length > 0 then [g.Preamble ++ "\n\n"] else [])
    ++ typenames.map (fun tn => sprintf2 g.Format tn)

/-- Runs the write calls against a sink's failure plan: the write with
index `i` succeeds iff `i ∉ failIdx`; a failed write writes nothing, and
its error is discarded (as the code discards every `Fprint` result), so
the following writes are still attempted. -/
def runWrites (failIdx : List Nat) (idx : Nat) : List String → List String
  | [] => []
  | t :: ts => (if failIdx.contains idx then [] else [t]) ++ runWrites failIdx (idx + 1) ts

/-- Outcome of `HandlePackage` for one package: a normal return (`ok`
with the sink's write log and whether `Close` was called, or `err` with
the returned error message) or a Go `panic`. -/
inductive HRes where
  | ok (log : WriteLog) (closed : Bool)
  | err (e : String)
  | panicked (e : String)
  deriving DecidableEq

/-- `HandlePackage`'s observable behaviour: the `WriteCloserCreator`
invocations it made (path, module), and its result. -/
structure HOut where
  calls : List (String × String)
  res : HRes
  deriving DecidableEq

/-- `filepath.Dir` for slash-separated paths (the only use is to derive
the directory hint handed to the sink creator). -/
def filepathDir (s : String) : String :=
  let parts := s.splitOn "/"
  if parts.length ≤ 1 then "." else String.intercalate "/" parts.dropLast

/-- The emission tail of `HandlePackage` (lines 174-189) on an obtained
sink: all writes are issued in order with their errors discarded, then
the sink is closed unless `NoClose` is set; the function returns `nil`. -/
def emitTo (g : Generator) (packagename : String) (typenames : List String) (w : SinkSpec) : HRes :=
  let texts := emitTexts g packagename typenames
  .ok { attempts := texts, written := runWrites w.failIdx 0 texts } (!g.NoClose)

/-- `Generator.HandlePackage` (src/stringsvar.go lines 117-190):
rejects packages without Go files, walks and filters type names,
resolves the sink (reusing `g.Output` when set, otherwise invoking the
creator — returning its error, or panicking on a nil sink with nil
error), and emits. -/
def handlePackage (g : Generator) (p : Package) : HOut :=
  if p.goFiles.length = 0 then
    { calls := [], res := .err "no Go files in package" }
  else
    let typenames := collectFiles g.Includes g.Ignores [] p.astFiles
    let packagename := lastPackageName p.astFiles
    match g.Output with
    | some w => { calls := [], res := emitTo g packagename typenames w }
    | none =>
      let path := filepathDir (p.goFiles.headD "")
      match g.WriteCloserCreator path packagename with
      | (_, some e) => { calls := [(path, packagename)], res := .err e }
      | (none, none) => { calls := [(path, packagename)], res := .panicked "nil WriteCloser" }
      | (some w, none) => { calls := [(path, packagename)], res := emitTo g packagename typenames w }

/-- The run-level accumulation of `Generate`: the errors joined into
`reterr` in order, the artifacts (write logs) produced, and every sink
creator invocation. -/
structure GenOut where
  errs : List String
  outs : List WriteLog
  calls : List (String × String)
  deriving DecidableEq

/-- Outcome of `Generate`: an early error return (`packages.Load`
failure, or the `"no packages loaded"` error), a halt by Go panic (the
`g.Patterns[i]` diagnostic indexing out of bounds, or the nil-sink
panic propagating out of `HandlePackage`), or a finished pass returning
the aggregate (`reterr` is nil iff `errs = []`). -/
inductive GResult where
  | loadFailed (e : String)
  | noPackagesLoaded
  | indexPanicked (i : Nat)
  | sinkPanicked (e : String)
  | finished (out : GenOut)
  deriving DecidableEq

/-- The `for i, p := range ps` loop of `Generate` (lines 88-102): each
iteration first evaluates `g.Patterns[i]` for the diagnostic line
(panicking when out of bounds); a package with load errors has them all
joined into `reterr` and is skipped; otherwise `HandlePackage` runs and
its error, if any, is joined without stopping the loop. -/
def genLoop (g : Generator) : Nat → List Package → GenOut → GResult
  | _, [], acc => .finished acc
  | i, p :: rest, acc =>
    match g.Patterns[i]? with
    | none => .indexPanicked i
    | some _ =>
      if p.errors.length > 0 then
        genLoop g (i + 1) rest
          { errs := acc.errs ++ p.errors, outs := acc.outs, calls := acc.calls }
      else
        let h := handlePackage g p
        match h.res with
        | .panicked e => .sinkPanicked e
        | .err e =>
          genLoop g (i + 1) rest
            { errs := acc.errs ++ [e], outs := acc.outs, calls := acc.calls ++ h.calls }
        | .ok log _ =>
          genLoop g (i + 1) rest
            { errs := acc.errs, outs := acc.outs ++ [log], calls := acc.calls ++ h.calls }

/-- `Generator.Generate` (lines 69-104) given the outcome of
`packages.Load`: a load error is returned as-is; zero loaded packages
yield the `"no packages loaded"` error; otherwise the per-package loop
runs and the joined error is returned. -/
def generate (g : Generator) (load : Except String (List Package)) : GResult :=
  match load with
  | .error e => .loadFailed e
  | .ok ps =>
    if ps.length = 0 then .noPackagesLoaded
    else genLoop g 0 ps { errs := [], outs := [], calls := [] }

/-! ### Declarative characterizations used to state the claims -/

/-- The type names a single declaration contributes to the walk. -/
def declTypeNames : Decl → List String
  | .genDecl tok specs => if tok = Tok.type then specs else []
  | .otherDecl => []

/-- Every type name the walk considers, in traversal order (file-list
order, then declaration order within a file, then spec order). -/
def allTypeNames (files : List GoFile) : List String :=
  files.flatMap fun f => f.decls.flatMap declTypeNames

/-- The filter decision, stated declaratively: a name is accepted iff no
ignore pattern matches it and (the include list is empty or some include
pattern matches it). -/
def acceptName (inc ign : List Pattern) (tn : String) : Bool :=
  !matchesAny ign tn && (inc.length = 0 || matchesAny inc tn)

/-- The errors one package contributes to the run's joined error: its
load diagnostics if it has any, otherwise the error (if any) returned by
`handlePackage`. -/
def handledErrs (g : Generator) (p : Package) : List String :=
  if p.errors.length > 0 then p.errors
  else
    match (handlePackage g p).res with
    | .err e => [e]
    | _ => []

/-- The artifacts one package contributes to the run. -/
def handledOuts (g : Generator) (p : Package) : List WriteLog :=
  if p.errors.length > 0 then []
  else
    match (handlePackage g p).res with
    | .ok log _ => [log]
    | _ => []

/-- The sink-creator invocations one package contributes to the run
(none when the package is skipped for load diagnostics). -/
def handledCalls (g : Generator) (p : Package) : List (String × String) :=
  if p.errors.length > 0 then []
  else (handlePackage g p).calls

/-- `true` iff handling this package would panic (a nil sink from the
creator) — packages skipped for load diagnostics never reach
`handlePackage`, so they never panic. -/
def panics (g : Generator) (p : Package) : Bool :=
  if p.errors.length > 0 then false
  else
    match (handlePackage g p).res with
    | .panicked _ => true
    | _ => false

/-- The writes attempted by a `handlePackage` result (empty unless the
package was emitted). -/
def attemptsOf : HRes → List String
  | .ok log _ => log.attempts
  | _ => []

/-- The writes that reached the sink. -/
def writtenOf : HRes → List String
  | .ok log _ => log.written
  | _ => []

/-! ### Helper lemmas -/

theorem collectSpecs_eq (inc ign : List Pattern) (acc : List String) (l : List String) :
    collectSpecs inc ign acc l = acc ++ l.filter (acceptName inc ign) := by
  induction l generalizing acc with
  | nil => simp [collectSpecs]
  | cons tn rest ih =>
    simp only [collectSpecs]
    by_cases hign : matchesAny ign tn = true
    · have hacc : acceptName inc ign tn = false := by simp [acceptName, hign]
      rw [if_pos hign, ih, List.filter_cons]
      simp [hacc]
    · have hign2 : matchesAny ign tn = false := by
        revert hign; cases matchesAny ign tn <;> simp
      rw [if_neg hign]
      by_cases hcond : (inc.length > 0 && !matchesAny inc tn) = true
      · have hacc : acceptName inc ign tn = false := by
          simp only [Bool.and_eq_true, Bool.not_eq_true', decide_eq_true_eq] at hcond
          have hne : inc.length ≠ 0 := by omega
          simp [acceptName, hign2, hcond.2, hne]
        rw [if_pos hcond, ih, List.filter_cons]
        simp [hacc]
      · have hacc : acceptName inc ign tn = true := by
          simp only [Bool.and_eq_true, Bool.not_eq_true', decide_eq_true_eq, not_and] at hcond
          by_cases hlen : inc.length = 0
          · simp [acceptName, hign2, hlen]
          · have hm : matchesAny inc tn = true := by
              have h2 := hcond (Nat.pos_of_ne_zero hlen)
              revert h2; cases matchesAny inc tn <;> simp
            simp [acceptName, hign2, hm]
        rw [if_neg hcond, ih, List.filter_cons]
        simp [hacc]

theorem collectDecls_eq (inc ign : List Pattern) (acc : List String) (ds : List Decl) :
    ds.foldl (collectDecl inc ign) acc
      = acc ++ (ds.flatMap declTypeNames).filter (acceptName inc ign) := by
  induction ds generalizing acc with
  | nil => simp
  | cons d rest ih =>
    rw [List.foldl_cons, ih]
    cases d with
    | genDecl tok specs =>
      by_cases h : tok = Tok.type
      · simp [collectDecl, declTypeNames, h, collectSpecs_eq, List.filter_append]
      · simp [collectDecl, declTypeNames, h]
    | otherDecl => simp [collectDecl, declTypeNames]

theorem collectFile_eq (inc ign : List Pattern) (acc : List String) (f : GoFile) :
    collectFile inc ign acc f
      = acc ++ (f.decls.flatMap declTypeNames).filter (acceptName inc ign) :=
  collectDecls_eq inc ign acc f.decls

theorem collectFiles_eq (inc ign : List Pattern) (acc : List String) (files : List GoFile) :
    collectFiles inc ign acc files = acc ++ (allTypeNames files).filter (acceptName inc ign) := by
  induction files generalizing acc with
  | nil => simp [collectFiles, allTypeNames]
  | cons f rest ih =>
    have hstep : collectFiles inc ign acc (f :: rest)
        = collectFiles inc ign (collectFile inc ign acc f) rest := rfl
    rw [hstep, ih, collectFile_eq]
    simp [allTypeNames, List.filter_append]

theorem foldl_pkgName (files : List GoFile) (s : String) :
    files.foldl (fun _ a => a.pkgName) s = ((files.getLast?).map GoFile.pkgName).getD s := by
  induction files generalizing s with
  | nil => simp
  | cons f rest ih =>
    rw [List.foldl_cons, ih]
    cases rest with
    | nil => simp
    | cons f2 rest2 =>
      rw [List.getLast?_cons_cons]
      cases h : (f2 :: rest2).getLast? with
      | none => exact absurd h (by simp)
      | some x => simp

theorem lastPackageName_eq (files : List GoFile) :
    lastPackageName files = ((files.getLast?).map GoFile.pkgName).getD "" :=
  foldl_pkgName files ""

theorem genLoop_finished (g : Generator) (ps : List Package) (i : Nat) (acc : GenOut)
    (hb : i + ps.length ≤ g.Patterns.length)
    (hp : ∀ p ∈ ps, panics g p = false) :
    genLoop g i ps acc = .finished
      { errs := acc.errs ++ ps.flatMap (handledErrs g)
      , outs := acc.outs ++ ps.flatMap (handledOuts g)
      , calls := acc.calls ++ ps.flatMap (handledCalls g) } := by
  induction ps generalizing i acc with
  | nil => simp [genLoop]
  | cons p rest ih =>
    have hi : i < g.Patterns.length := by
      simp only [List.length_cons] at hb; omega
    have hb2 : (i + 1) + rest.length ≤ g.Patterns.length := by
      simp only [List.length_cons] at hb; omega
    have hp2 : ∀ q ∈ rest, panics g q = false := fun q hq => hp q (List.mem_cons_of_mem p hq)
    simp only [genLoop, List.getElem?_eq_getElem hi]
    by_cases he : p.errors.length > 0
    · rw [if_pos he, ih _ _ hb2 hp2]
      simp [handledErrs, handledOuts, handledCalls, he]
    · rw [if_neg he]
      have hp0 := hp p (List.mem_cons_self p rest)
      cases hres : (handlePackage g p).res with
      | panicked e =>
        exfalso
        have hcontra : panics g p = true := by simp [panics, he, hres]
        rw [hp0] at hcontra
        exact Bool.noConfusion hcontra
      | err e =>
        show genLoop g (i + 1) rest
            { errs := acc.errs ++ [e], outs := acc.outs
            , calls := acc.calls ++ (handlePackage g p).calls } = _
        rw [ih _ _ hb2 hp2]
        simp [handledErrs, handledOuts, handledCalls, he, hres]
      | ok log closed =>
        show genLoop g (i + 1) rest
            { errs := acc.errs, outs := acc.outs ++ [log]
            , calls := acc.calls ++ (handlePackage g p).calls } = _
        rw [ih _ _ hb2 hp2]
        simp [handledErrs, handledOuts, handledCalls, he, hres]

theorem genLoop_inBounds (g : Generator) (ps : List Package) (i : Nat) (acc : GenOut)
    (hb : i + ps.length ≤ g.Patterns.length) :
    ∀ j, genLoop g i ps acc ≠ .indexPanicked j := by
  induction ps generalizing i acc with
  | nil => intro j; simp [genLoop]
  | cons p rest ih =>
    intro j
    have hi : i < g.Patterns.length := by
      simp only [List.length_cons] at hb; omega
    have hb2 : (i + 1) + rest.length ≤ g.Patterns.length := by
      simp only [List.length_cons] at hb; omega
    simp only [genLoop, List.getElem?_eq_getElem hi]
    by_cases he : p.errors.length > 0
    · rw [if_pos he]; exact ih _ _ hb2 j
    · rw [if_neg he]
      cases hres : (handlePackage g p).res with
      | panicked e =>
        show GResult.sinkPanicked e ≠ _
        simp
      | err e =>
        show genLoop g (i + 1) rest
            { errs := acc.errs ++ [e], outs := acc.outs
            , calls := acc.calls ++ (handlePackage g p).calls } ≠ _
        exact ih _ _ hb2 j
      | ok log closed =>
        show genLoop g (i + 1) rest
            { errs := acc.errs, outs := acc.outs ++ [log]
            , calls := acc.calls ++ (handlePackage g p).calls } ≠ _
        exact ih _ _ hb2 j

theorem genLoop_overflow (g : Generator) (ps : List Package) (i : Nat) (acc : GenOut)
    (he : ∀ p ∈ ps, p.errors.length > 0)
    (hle : i ≤ g.Patterns.length)
    (hgt : g.Patterns.length < i + ps.length) :
    genLoop g i ps acc = .indexPanicked g.Patterns.length := by
  induction ps generalizing i acc with
  | nil => simp only [List.length_nil] at hgt; omega
  | cons p rest ih =>
    by_cases hi : i < g.Patterns.length
    · have hsome : g.Patterns[i]? = some g.Patterns[i] := List.getElem?_eq_getElem hi
      simp only [genLoop, hsome]
      rw [if_pos (he p (List.mem_cons_self p rest))]
      exact ih _ _ (fun q hq => he q (List.mem_cons_of_mem p hq)) (by omega)
        (by simp only [List.length_cons] at hgt; omega)
    · have hieq : i = g.Patterns.length := by omega
      subst hieq
      have hnone : g.Patterns[g.Patterns.length]? = none := by
        rw [List.getElem?_eq_none]
        omega
      simp only [genLoop, hnone]

theorem runWrites_nil (idx : Nat) (ts : List String) : runWrites [] idx ts = ts := by
  induction ts generalizing idx with
  | nil => rfl
  | cons t rest ih => simp [runWrites, ih]

theorem acceptName_iff (inc ign : List Pattern) (tn : String) :
    acceptName inc ign tn = true ↔
      matchesAny ign tn = false ∧ (inc = [] ∨ matchesAny inc tn = true) := by
  unfold acceptName
  cases h : matchesAny ign tn with
  | true => simp [h]
  | false => simp [h, List.length_eq_zero]

theorem handledErrs_eq_nil (g : Generator) (p : Package) :
    handledErrs g p = [] ↔
      p.errors = [] ∧ ∀ e, (handlePackage g p).res ≠ HRes.err e := by
  unfold handledErrs
  by_cases he : p.errors.length > 0
  · rw [if_pos he]
    have hne : p.errors ≠ [] := by
      intro h; rw [h] at he; simp at he
    constructor
    · intro h; exact absurd h hne
    · rintro ⟨h, -⟩; exact absurd h hne
  · rw [if_neg he]
    have hnil : p.errors = [] := by
      rw [← List.length_eq_zero]; omega
    cases hres : (handlePackage g p).res with
    | ok log closed => simp [hnil, hres]
    | err e =>
      constructor
      · intro h; exact absurd h (by simp)
      · rintro ⟨-, h⟩; exact absurd rfl (h e)
    | panicked e => simp [hnil, hres]

/-! ### Claims -/

/-- C1: for every type name considered during filtering, if any ignore
pattern matches the name, the name is excluded from the collected (and
hence emitted) type names, regardless of the contents of the include
list — ignore always takes precedence over include. -/
theorem claim_C1_ignore_precedence (inc ign : List Pattern) (files : List GoFile) (tn : String)
    (h : matchesAny ign tn = true) :
    tn ∉ collectFiles inc ign [] files := by
  rw [collectFiles_eq, List.nil_append]
  intro hmem
  have hacc := (List.mem_filter.mp hmem).2
  rw [acceptName_iff] at hacc
  rw [hacc.1] at h
  exact Bool.noConfusion h

/-- Witness for C1: with `"String"` both included and ignored, the name
is excluded from the collected names of a package declaring `Int`,
`String`, `Struct`. -/
theorem claim_C1_witness :
    matchesAny [fun s => s == "String"] "String" = true ∧
      "String" ∉ collectFiles [fun s => s == "String"] [fun s => s == "String"] []
        [{ pkgName := "one", decls := [.genDecl .type ["Int", "String", "Struct"]] }] :=
  ⟨by decide, claim_C1_ignore_precedence
    [fun s => s == "String"] [fun s => s == "String"]
    [{ pkgName := "one", decls := [.genDecl .type ["Int", "String", "Struct"]] }]
    "String" (by decide)⟩

/-- C2: a considered type name is collected iff no ignore pattern
matches it and, when the include list is non-empty, at least one
include pattern matches it; an empty include list accepts every name
not ignored. -/
theorem claim_C2_include_semantics (inc ign : List Pattern) (files : List GoFile) (tn : String) :
    tn ∈ collectFiles inc ign [] files ↔
      tn ∈ allTypeNames files ∧ matchesAny ign tn = false ∧
        (inc = [] ∨ matchesAny inc tn = true) := by
  rw [collectFiles_eq, List.nil_append, List.mem_filter, acceptName_iff]

/-- C5: a `packages.Load` error is returned as-is and zero loaded
packages yield the distinct `"no packages loaded"` error; in both cases
the per-package loop never runs. -/
theorem claim_C5_load_failures (g : Generator) (e : String) :
    generate g (.error e) = .loadFailed e ∧ generate g (.ok []) = .noPackagesLoaded :=
  ⟨rfl, rfl⟩

/-- A generator configuration writing to a caller-supplied sink whose
first write call fails. -/
def gC3 : Generator :=
  { Patterns := ["p"], Includes := [], Ignores := [], Format := "%s,%s\n"
  , WriteCloserCreator := fun _ _ => (none, some "unused"), Output := some { failIdx := [0] }
  , NoClose := false, Header := "H", Preamble := "", NoPackage := false }

/-- A loaded package declaring the single type `Int`. -/
def pC3 : Package :=
  { errors := [], goFiles := ["one/a.go"]
  , astFiles := [{ pkgName := "one", decls := [.genDecl .type ["Int"]] }] }

/-- C3 counterexample: with a sink whose first write (the header)
fails, `HandlePackage` still returns success (`nil`), still attempts
the package clause, the stub line and the close — no error propagates
and no emission step is skipped, contradicting the claim. -/
theorem claim_C3_counterexample :
    (handlePackage gC3 pC3).res
      = .ok { attempts := ["H", "package one\n\n", "Int,Int\n"]
            , written := ["package one\n\n", "Int,Int\n"] } true := by
  rfl

/-- C3 as amended: the `fmt.Fprint`/`Fprintf` results are discarded
during emission, so a failed write leaves a gap in the artifact but all
remaining writes are still attempted, the sink is still closed unless
`NoClose` is set, and `HandlePackage` reports success whatever the
sink's failure plan is. -/
theorem claim_C3_amended (g : Generator) (p : Package) (w : SinkSpec)
    (h1 : p.goFiles.length ≠ 0) (hw : g.Output = some w) :
    (handlePackage g p).res
      = .ok { attempts := emitTexts g (lastPackageName p.astFiles)
                  (collectFiles g.Includes g.Ignores [] p.astFiles)
            , written := runWrites w.failIdx 0
                  (emitTexts g (lastPackageName p.astFiles)
                    (collectFiles g.Includes g.Ignores [] p.astFiles)) }
          (!g.NoClose) := by
  unfold handlePackage
  rw [if_neg h1, hw]
  rfl

/-- Witness for C3 as amended, at the counterexample's failing sink. -/
theorem claim_C3_witness :
    gC3.Output = some { failIdx := [0] } ∧
      (handlePackage gC3 pC3).res
        = .ok { attempts := emitTexts gC3 (lastPackageName pC3.astFiles)
                    (collectFiles gC3.Includes gC3.Ignores [] pC3.astFiles)
              , written := runWrites [0] 0
                    (emitTexts gC3 (lastPackageName pC3.astFiles)
                      (collectFiles gC3.Includes gC3.Ignores [] pC3.astFiles)) }
            (!gC3.NoClose) :=
  ⟨rfl, claim_C3_amended gC3 pC3 { failIdx := [0] } (by decide) rfl⟩

/-- C4: with every diagnostic index in bounds and no nil-sink panic,
the run visits every loaded package: a package with load diagnostics
contributes exactly its diagnostics to the joined error and neither an
artifact nor a sink-creator call, any `HandlePackage` error is joined
without stopping the loop, and the run returns the aggregate — nil
exactly when no package had load diagnostics and none returned an
error. -/
theorem claim_C4_error_aggregation (g : Generator) (ps : List Package)
    (hne : ps ≠ [])
    (hb : ps.length ≤ g.Patterns.length)
    (hp : ∀ p ∈ ps, panics g p = false) :
    generate g (.ok ps) = .finished
      { errs := ps.flatMap (handledErrs g)
      , outs := ps.flatMap (handledOuts g)
      , calls := ps.flatMap (handledCalls g) } ∧
    (ps.flatMap (handledErrs g) = [] ↔
      ∀ p ∈ ps, p.errors = [] ∧ ∀ e, (handlePackage g p).res ≠ HRes.err e) := by
  have hlen : ¬(ps.length = 0) := by
    cases ps with
    | nil => exact absurd rfl hne
    | cons q qs => simp
  constructor
  · have hstep : generate g (.ok ps)
        = if ps.length = 0 then GResult.noPackagesLoaded
          else genLoop g 0 ps { errs := [], outs := [], calls := [] } := rfl
    rw [hstep, if_neg hlen, genLoop_finished g ps 0 _ (by omega) hp]
    simp
  · rw [List.flatMap_eq_nil_iff]
    constructor
    · intro h p hmem
      exact (handledErrs_eq_nil g p).mp (h p hmem)
    · intro h p hmem
      exact (handledErrs_eq_nil g p).mpr (h p hmem)

/-- A configuration whose first pattern loads one broken and one good
package, writing to a caller-supplied sink. -/
def gC4 : Generator :=
  { Patterns := ["a", "b"], Includes := [], Ignores := [], Format := "%s,%s\n"
  , WriteCloserCreator := fun _ _ => (none, some "never"), Output := some { failIdx := [] }
  , NoClose := false, Header := "", Preamble := "", NoPackage := false }

/-- One package with load diagnostics followed by one healthy package. -/
def psC4 : List Package :=
  [ { errors := ["bad syntax"], goFiles := [], astFiles := [] }
  , { errors := [], goFiles := ["d/x.go"]
    , astFiles := [{ pkgName := "two", decls := [.genDecl .type ["T"]] }] } ]

/-- Witness for C4: a run over a broken package and a healthy one
aggregates the diagnostics and still emits the healthy artifact. -/
theorem claim_C4_witness :
    (∀ p ∈ psC4, panics gC4 p = false) ∧
      generate gC4 (.ok psC4) = .finished
        { errs := psC4.flatMap (handledErrs gC4)
        , outs := psC4.flatMap (handledOuts gC4)
        , calls := psC4.flatMap (handledCalls gC4) } :=
  ⟨by decide, (claim_C4_error_aggregation gC4 psC4 (by decide) (by decide) (by decide)).1⟩

/-- C6: for a successfully emitted package, the stub lines reach the
sink in exactly the traversal order — all files in file-list order,
declarations in source order within each file, filtered, and formatted —
after the optional header, package clause and preamble. -/
theorem claim_C6_emission_order (g : Generator) (p : Package) (w : SinkSpec)
    (h1 : p.goFiles.length ≠ 0) (hw : g.Output = some w) (hnf : w.failIdx = []) :
    writtenOf (handlePackage g p).res
      = emitTexts g (lastPackageName p.astFiles)
          ((allTypeNames p.astFiles).filter (acceptName g.Includes g.Ignores)) := by
  unfold handlePackage
  rw [if_neg h1, hw]
  show runWrites w.failIdx 0
      (emitTexts g (lastPackageName p.astFiles)
        (collectFiles g.Includes g.Ignores [] p.astFiles)) = _
  rw [hnf, runWrites_nil, collectFiles_eq, List.nil_append]

/-- A configuration with no filters and the default-style stub format. -/
def gC6 : Generator :=
  { Patterns := ["t"], Includes := [], Ignores := [], Format := "%s,%s\n"
  , WriteCloserCreator := fun _ _ => (none, some "never"), Output := some { failIdx := [] }
  , NoClose := false, Header := "", Preamble := "", NoPackage := false }

/-- The spec's example package: type declarations `Int`, `String`,
`Struct` in that source order. -/
def pC6 : Package :=
  { errors := [], goFiles := ["one/a.go"]
  , astFiles := [{ pkgName := "one"
                 , decls := [ .genDecl .type ["Int"]
                            , .genDecl .type ["String"]
                            , .genDecl .type ["Struct"] ] }] }

/-- Witness for C6: the `Int`, `String`, `Struct` package with no
filters yields its stub lines in exactly that order after the package
clause. -/
theorem claim_C6_witness :
    writtenOf (handlePackage gC6 pC6).res
        = emitTexts gC6 (lastPackageName pC6.astFiles)
            ((allTypeNames pC6.astFiles).filter (acceptName gC6.Includes gC6.Ignores)) ∧
      writtenOf (handlePackage gC6 pC6).res
        = ["package one\n\n", "Int,Int\n", "String,String\n", "Struct,Struct\n"] :=
  ⟨claim_C6_emission_order gC6 pC6 { failIdx := [] } (by decide) rfl rfl, by decide⟩

/-- C7: a sink creator returning a nil sink together with a nil error
makes `HandlePackage` panic, and the panic halts the whole run with a
result distinct from the ordinary aggregated finish — no later package
is processed and nothing is joined. -/
theorem claim_C7_nil_sink_halts (g : Generator) (p : Package) (rest : List Package)
    (h0 : g.Patterns ≠ [])
    (h1 : p.errors = [])
    (h2 : p.goFiles.length ≠ 0)
    (h3 : g.Output = none)
    (h4 : g.WriteCloserCreator (filepathDir (p.goFiles.headD "")) (lastPackageName p.astFiles)
            = (none, none)) :
    (handlePackage g p).res = .panicked "nil WriteCloser" ∧
      generate g (.ok (p :: rest)) = .sinkPanicked "nil WriteCloser" := by
  have hres : (handlePackage g p).res = .panicked "nil WriteCloser" := by
    unfold handlePackage
    rw [if_neg h2]
    simp only [h3]
    rw [h4]
  refine ⟨hres, ?_⟩
  have h0len : 0 < g.Patterns.length := List.length_pos.mpr h0
  have hstep : generate g (.ok (p :: rest))
      = if (p :: rest).length = 0 then GResult.noPackagesLoaded
        else genLoop g 0 (p :: rest) { errs := [], outs := [], calls := [] } := rfl
  rw [hstep, if_neg (by simp)]
  simp only [genLoop, List.getElem?_eq_getElem h0len]
  rw [if_neg (by simp [h1]), hres]

/-- A configuration whose sink creator violates its contract by
returning neither a sink nor an error. -/
def gC7 : Generator :=
  { Patterns := ["z"], Includes := [], Ignores := [], Format := "%s,%s\n"
  , WriteCloserCreator := fun _ _ => (none, none), Output := none
  , NoClose := false, Header := "", Preamble := "", NoPackage := false }

/-- A healthy package handed to the broken sink creator. -/
def pC7 : Package :=
  { errors := [], goFiles := ["z/a.go"]
  , astFiles := [{ pkgName := "z", decls := [.genDecl .type ["T"]] }] }

/-- Witness for C7: the broken creator halts the run. -/
theorem claim_C7_witness :
    (handlePackage gC7 pC7).res = .panicked "nil WriteCloser" ∧
      generate gC7 (.ok [pC7]) = .sinkPanicked "nil WriteCloser" :=
  claim_C7_nil_sink_halts gC7 pC7 [] (by decide) rfl (by decide) rfl rfl

/-- C8: a loaded package with zero Go source files fails with the
no-source-files error before any sink creation, produces no artifact,
and its error is joined while the loop continues with the remaining
packages. -/
theorem claim_C8_no_source_files (g : Generator) (p : Package) (rest : List Package)
    (hb : (p :: rest).length ≤ g.Patterns.length)
    (h1 : p.errors = [])
    (h2 : p.goFiles = [])
    (hp : ∀ q ∈ rest, panics g q = false) :
    handlePackage g p = { calls := [], res := .err "no Go files in package" } ∧
      generate g (.ok (p :: rest)) = .finished
        { errs := "no Go files in package" :: rest.flatMap (handledErrs g)
        , outs := rest.flatMap (handledOuts g)
        , calls := rest.flatMap (handledCalls g) } := by
  have hh : handlePackage g p = { calls := [], res := .err "no Go files in package" } := by
    unfold handlePackage
    rw [if_pos (by rw [h2]; rfl)]
  refine ⟨hh, ?_⟩
  have hp2 : ∀ q ∈ p :: rest, panics g q = false := by
    intro q hq
    rcases List.mem_cons.mp hq with heq | hmem
    · subst heq
      simp [panics, h1, hh]
    · exact hp q hmem
  have hstep : generate g (.ok (p :: rest))
      = if (p :: rest).length = 0 then GResult.noPackagesLoaded
        else genLoop g 0 (p :: rest) { errs := [], outs := [], calls := [] } := rfl
  rw [hstep, if_neg (by simp), genLoop_finished g (p :: rest) 0 _ (by simpa using hb) hp2]
  simp [handledErrs, handledOuts, handledCalls, h1, hh]

/-- A two-pattern configuration writing to a caller-supplied sink. -/
def gC8 : Generator :=
  { Patterns := ["a", "b"], Includes := [], Ignores := [], Format := "%s,%s\n"
  , WriteCloserCreator := fun _ _ => (none, some "never"), Output := some { failIdx := [] }
  , NoClose := false, Header := "", Preamble := "", NoPackage := false }

/-- A loaded package with no Go source files. -/
def pC8 : Package := { errors := [], goFiles := [], astFiles := [] }

/-- A healthy package processed after the file-less one. -/
def pC8b : Package :=
  { errors := [], goFiles := ["b/x.go"]
  , astFiles := [{ pkgName := "b", decls := [.genDecl .type ["U"]] }] }

/-- Witness for C8: the file-less package contributes only its error
and the following package is still emitted. -/
theorem claim_C8_witness :
    handlePackage gC8 pC8 = { calls := [], res := .err "no Go files in package" } ∧
      generate gC8 (.ok [pC8, pC8b]) = .finished
        { errs := "no Go files in package" :: [pC8b].flatMap (handledErrs gC8)
        , outs := [pC8b].flatMap (handledOuts gC8)
        , calls := [pC8b].flatMap (handledCalls gC8) } :=
  claim_C8_no_source_files gC8 pC8 [pC8b] (by decide) rfl rfl (by decide)

/-- The first write of `emitTexts` when no header is configured and the
package clause is not suppressed. -/
theorem emitTexts_head (g : Generator) (pn : String) (tns : List String)
    (hh : g.Header = "") (hnp : g.NoPackage = false) :
    (emitTexts g pn tns).head? = some ("package " ++ pn ++ "\n\n") := by
  unfold emitTexts
  rw [hh, hnp]
  rfl

/-- C9: the package name written in the generated package clause is the
declared package name of the last-visited file of the package — when
files disagree, the last one silently wins. -/
theorem claim_C9_last_file_package_name (g : Generator) (p : Package) (w : SinkSpec)
    (h1 : p.goFiles.length ≠ 0) (h2 : p.astFiles ≠ [])
    (hw : g.Output = some w) (hh : g.Header = "") (hnp : g.NoPackage = false) :
    (attemptsOf (handlePackage g p).res).head?
      = some ("package " ++ (p.astFiles.getLast h2).pkgName ++ "\n\n") := by
  unfold handlePackage
  rw [if_neg h1, hw]
  show (emitTexts g (lastPackageName p.astFiles)
      (collectFiles g.Includes g.Ignores [] p.astFiles)).head? = _
  have hlast : lastPackageName p.astFiles = (p.astFiles.getLast h2).pkgName := by
    rw [lastPackageName_eq, List.getLast?_eq_getLast p.astFiles h2]
    rfl
  rw [emitTexts_head g _ _ hh hnp, hlast]

/-- A filterless configuration writing to a caller-supplied sink. -/
def gC9 : Generator :=
  { Patterns := ["m"], Includes := [], Ignores := [], Format := "%s,%s\n"
  , WriteCloserCreator := fun _ _ => (none, some "never"), Output := some { failIdx := [] }
  , NoClose := false, Header := "", Preamble := "", NoPackage := false }

/-- A package whose two files disagree on the declared package name. -/
def pC9 : Package :=
  { errors := [], goFiles := ["m/a.go", "m/b.go"]
  , astFiles := [ { pkgName := "alpha", decls := [] }
                , { pkgName := "beta", decls := [.genDecl .type ["V"]] } ] }

/-- Witness for C9: with files declaring `alpha` then `beta`, the
emitted clause uses `beta`. -/
theorem claim_C9_witness :
    gC9.Output = some { failIdx := [] } ∧
      (attemptsOf (handlePackage gC9 pC9).res).head?
        = some ("package " ++ (pC9.astFiles.getLast (by decide)).pkgName ++ "\n\n") :=
  ⟨rfl, claim_C9_last_file_package_name gC9 pC9 { failIdx := [] }
    (by decide) (by decide) rfl rfl rfl⟩

/-- C10: the per-package diagnostic line indexes `g.Patterns` by the
package's position in the loaded list, so the run avoids the index
panic exactly under the bound of the claim: it is safe whenever the
loader returns at most as many packages as there are patterns, and a
longer package list drives the loop into the panic at index
`Patterns.length` (shown here on runs whose packages all carry load
diagnostics, so that no other halt preempts the indexing). -/
theorem claim_C10_pattern_indexing (g : Generator) (ps : List Package) (hne : ps ≠ []) :
    (ps.length ≤ g.Patterns.length → ∀ j, generate g (.ok ps) ≠ .indexPanicked j) ∧
    (g.Patterns.length < ps.length → (∀ p ∈ ps, p.errors.length > 0) →
      generate g (.ok ps) = .indexPanicked g.Patterns.length) := by
  have hlen : ¬(ps.length = 0) := by
    cases ps with
    | nil => exact absurd rfl hne
    | cons q qs => simp
  have hstep : generate g (.ok ps)
      = if ps.length = 0 then GResult.noPackagesLoaded
        else genLoop g 0 ps { errs := [], outs := [], calls := [] } := rfl
  constructor
  · intro hb j
    rw [hstep, if_neg hlen]
    exact genLoop_inBounds g ps 0 _ (by omega) j
  · intro hgt he
    rw [hstep, if_neg hlen]
    exact genLoop_overflow g ps 0 _ he (by omega) (by omega)

/-- A configuration with a single pattern. -/
def gC10 : Generator :=
  { Patterns := ["only"], Includes := [], Ignores := [], Format := "%s,%s\n"
  , WriteCloserCreator := fun _ _ => (none, some "never"), Output := some { failIdx := [] }
  , NoClose := false, Header := "", Preamble := "", NoPackage := false }

/-- Two loaded packages (one pattern expanded to more packages than
there are patterns), each carrying a load diagnostic. -/
def psC10 : List Package :=
  [ { errors := ["e1"], goFiles := [], astFiles := [] }
  , { errors := ["e2"], goFiles := [], astFiles := [] } ]

/-- Witness for C10: one configured pattern but two loaded packages
drive the run into the index panic at position 1. -/
theorem claim_C10_witness :
    generate gC10 (.ok psC10) = .indexPanicked 1 :=
  (claim_C10_pattern_indexing gC10 psC10 (by decide)).2 (by decide) (by decide)

end Typestringer
